import Mathlib

/-!
Shallow embedding of the KinoScheduleMaker day-scheduler (src/main.py together
with the day configuration format of src/config.py), and proofs about it.

The Python program builds a CP-SAT model: one boolean variable per
(employee, slot, activity) triple, a fixed set of hard constraints, a registry
of named, weighted soft constraints gated by per-record enable toggles, a
relaxation ladder of forced-disabled sets, and an idealistic refinement
re-solve.  Here the model is embedded shallowly: a candidate solution is a
function assigning booleans to the schedule variables (plus explicit
assignments for the auxiliary variables the model creates), and every
constraint the Python code adds becomes a decidable satisfaction predicate
translated clause by clause from the source.  Aborts (SystemExit, failed
assert statements, uncaught KeyError and TypeError) are modelled by explicit
outcome types.
-/

namespace Kino

/-- Python range(start, stop, step) for a positive step, as a list. -/
def pyRange (start stop step : Nat) : List Nat :=
  (List.range ((stop - start + step - 1) / step)).map fun i => start + i * step

/-- Sum of a list of 0/1 indicators, as Python sum() over solver booleans. -/
def boolSum (l : List Bool) : Nat :=
  (l.map fun b => if b then 1 else 0).sum

namespace Store

def TIME_OPEN : Nat := 10

def TIME_CLOSE : Nat := 20

def HOURS_OPEN : Nat := TIME_CLOSE - TIME_OPEN

def MINUTES_PER_SLOT : Nat := 15

def SLOTS_PER_HOUR : Nat := 60 / MINUTES_PER_SLOT

def NUM_SLOTS : Nat := HOURS_OPEN * SLOTS_PER_HOUR

/-- Python int() on a field of a time string: a nonempty run of decimal
digits (the only shape the program ever feeds it). -/
def parseNat (cs : List Char) : Option Nat :=
  if !cs.isEmpty && cs.all (fun c => 48 ≤ c.toNat && c.toNat ≤ 57) then
    some (cs.foldl (fun acc c => acc * 10 + (c.toNat - 48)) 0)
  else
    none

/-- Store.time_to_slot: parses "H:MM" or "HH:MM" at the first colon; an hour
below 10 is read as PM (12 is added).  Malformed number fields, which raise
ValueError in Python, are given the placeholder value 0 here; the claims only
ever apply the function to well-formed time strings. -/
def timeToSlot (t : String) : Nat :=
  let split := (t.toList.takeWhile (fun c => c != ':')).length
  let hour0 := (parseNat (t.toList.take split)).getD 0
  let hour := if hour0 < 10 then hour0 + 12 else hour0
  let minute := (parseNat (t.toList.drop (split + 1))).getD 0
  ((hour - TIME_OPEN) * SLOTS_PER_HOUR) + (minute / MINUTES_PER_SLOT)

/-- Two-digit zero padded decimal, as the Python format spec 02 used in
slot_to_time. -/
def pad2 (n : Nat) : String :=
  if n < 10 then "0" ++ toString n else toString n

/-- Store.slot_to_time. -/
def slotToTime (slot : Nat) : String :=
  let hour0 := TIME_OPEN + slot / SLOTS_PER_HOUR
  let hour := if hour0 > 12 then hour0 - 12 else hour0
  let seconds := (slot % SLOTS_PER_HOUR) * MINUTES_PER_SLOT
  toString hour ++ ":" ++ pad2 seconds

end Store

/-- The well-formed time strings of the open-hours range: "H:MM" or "HH:MM"
with a clock hour from 1 to 12 and a minute field from 00 to 59, denoting a
slot of the business day (10 AM up to and including the 8 PM close). -/
def mkTime (h m : Nat) : String :=
  toString h ++ ":" ++ Store.pad2 m

def ValidTime (t : String) : Prop :=
  ∃ h m, 1 ≤ h ∧ h ≤ 12 ∧ m ≤ 59 ∧ t = mkTime h m ∧ Store.timeToSlot t ≤ Store.NUM_SLOTS

/-- A Shift as built by Shift.__init__: the label ("E", "M", "L" or an
explicit "start-end" string), the full-time flag, and the derived slot range. -/
structure Shift where
  config : String
  is_fulltime : Bool
  range_start : Nat
  range_stop : Nat
deriving Inhabited, DecidableEq

/-- The (template, full-time) to (start time, stop time) table of
Shift.__init__.  The five listed pairs are the only keys; any other template
pair raises KeyError in Python, modelled as none. -/
def shiftTemplateTimes : String → Bool → Option (String × String)
  | "E", true => some (("10:00"), ("6:30"))
  | "E", false => some (("10:00"), ("5:45"))
  | "M", false => some (("11:00"), ("7:00"))
  | "L", true => some (("11:15"), ("8:00"))
  | "L", false => some (("12:00"), ("8:00"))
  | _, _ => none

/-- Shift.__init__: a template label goes through shiftTemplateTimes (none
models the uncaught KeyError); any other label is split at its first "-" into
an explicit start and stop time. -/
def Shift.init (config : String) (is_fulltime : Bool) : Option Shift :=
  if config == "E" || config == "M" || config == "L" then
    match shiftTemplateTimes config is_fulltime with
    | none => none
    | some (tStart, tStop) =>
      some ⟨config, is_fulltime, Store.timeToSlot tStart, Store.timeToSlot tStop⟩
  else
    let i := (config.toList.takeWhile (fun c => c != '-')).length
    let tStart := (config.toList.take i).asString
    let tStop := (config.toList.drop (i + 1)).asString
    some ⟨config, is_fulltime, Store.timeToSlot tStart, Store.timeToSlot tStop⟩

/-- Shift.lunch_slots (a static method): every 4th slot from 12:00 up to
4:00, the on-the-hour lunch start candidates. -/
def Shift.lunchSlots : List Nat :=
  pyRange (Store.timeToSlot ("12:00")) (Store.timeToSlot ("4:00")) 4

/-- The (template, full-time) to priority table of Shift.lunch_priority; the
same five keys as the constructor table, none models KeyError. -/
def lunchPriorityTable : String → Bool → Option Nat
  | "E", true => some 2
  | "E", false => some 2
  | "M", false => some 1
  | "L", true => some 0
  | "L", false => some 0
  | _, _ => none

/-- The (template, full-time) to strict lunch window table of
Shift.lunch_slots_strict; the same five keys, none models KeyError. -/
def lunchSlotsStrictTable : String → Bool → Option (String × String)
  | "E", true => some (("12:00"), ("2:00"))
  | "E", false => some (("12:00"), ("2:00"))
  | "M", false => some (("1:00"), ("3:00"))
  | "L", true => some (("2:00"), ("4:00"))
  | "L", false => some (("2:00"), ("4:00"))
  | _, _ => none

structure Employee where
  shift : Shift
  name : String
  dept : String
deriving Inhabited, DecidableEq

/-- One entry of the register-count step schedule, already converted to a
slot as in Config.__init__. -/
structure Epoch where
  count : Nat
  start : Nat
deriving Inhabited, DecidableEq

/-- The per-day configuration held by Config after __init__: the employee
list, the meetings (name, list of slot ranges as start/stop pairs), and the
register-count schedule. -/
structure Config where
  employees : List Employee
  meetings : List (String × List (Nat × Nat))
  register_count : List Epoch
deriving Inhabited, DecidableEq

/-- self.config.employees[eid]; every use below is guarded by
eid < employees.length, so the default value is never observed. -/
def Config.employee (cfg : Config) (eid : Nat) : Employee :=
  cfg.employees.getD eid default

/-- Config.employee_ids with an explicit filter and polarity flag. -/
def Config.employeeIdsF (cfg : Config) (filtType : String) (opposite : Bool) : List Nat :=
  if filtType == "ALL" then
    List.range cfg.employees.length
  else if filtType == "FULLTIME" then
    (List.range cfg.employees.length).filter fun eid =>
      xor opposite (cfg.employee eid).shift.is_fulltime
  else
    (List.range cfg.employees.length).filter fun eid =>
      xor opposite ((cfg.employee eid).dept == filtType)

/-- Config.employee_ids() with the Python default arguments. -/
def Config.employeeIds (cfg : Config) : List Nat :=
  cfg.employeeIdsF ("ALL") false

/-- The ids whose employee name equals the looked-up name, the list ret of
Config.employee_name_to_id. -/
def Config.matchingIds (cfg : Config) (name : String) : List Nat :=
  (List.range cfg.employees.length).filter fun eid => (cfg.employee eid).name == name

/-- Outcome of Config.employee_name_to_id: a failed assert statement (the
absent-name case, commented "Software bug." in the source), a SystemExit with
an operator-facing message (the ambiguous-name case), or the found id. -/
inductive LookupResult where
  | assertionError : LookupResult
  | systemExit : String → LookupResult
  | found : Nat → LookupResult
deriving DecidableEq

/-- Config.employee_name_to_id. -/
def Config.employeeNameToId (cfg : Config) (name : String) : LookupResult :=
  let ret := cfg.matchingIds name
  if ret.length = 0 then .assertionError
  else if ret.length = 1 then .found (ret.headD 0)
  else .systemExit ("Name \"" ++ name ++ "\" is not unique")

/-- Config.number_of_designated_cashiers_here. -/
def Config.numberOfDesignatedCashiersHere (cfg : Config) (slot : Nat) : Nat :=
  (cfg.employeeIdsF ("CASHIER") false).countP fun eid =>
    decide ((cfg.employee eid).shift.range_start ≤ slot ∧ slot < (cfg.employee eid).shift.range_stop)

namespace Appointment

def NOT_HERE : Nat := 0

def REGULAR : Nat := 1

def LUNCH : Nat := 2

def BREAK : Nat := 3

def CASHIER : Nat := 4

def SUPPORT : Nat := 5

def MEETING : Nat := 6

def COUNT : Nat := 7

end Appointment

/-- A candidate assignment to the schedule variables: one boolean per
(employee id, slot, appointment) triple, exactly the self.sched dictionary of
Run.__init__. -/
abbrev Sched := Nat → Nat → Nat → Bool

/-- A candidate assignment to the auxiliary boolean variables the hard
constraints create: non_cashier_cashiers (one per slot) and to_the_right (one
per employee and lunch candidate slot). -/
structure HardAux where
  nonCashierCashiers : Nat → Bool
  toTheRight : Nat → Nat → Bool

/-- The constraints Run.ortools_or adds for result and vars:
AddBoolOr(vars + [result.Not()]) together with AddImplication(var, result)
for every var. -/
def ortoolsOrB (result : Bool) (vars : List Bool) : Bool :=
  (vars.any id || !result) && vars.all fun v => !v || result

/-- The constraints Run.ortools_and adds for result and vars:
AddBoolOr([var.Not() for var] + [result]) together with
AddImplication(result, var) for every var. -/
def ortoolsAndB (result : Bool) (vars : List Bool) : Bool :=
  (vars.any (fun v => !v) || result) && vars.all fun v => !result || v

/-- Hard constraint: shift start and end times.  For every employee and slot,
the NOT_HERE variable equals the negation of "slot is in the shift range". -/
def shiftBoundsSat (cfg : Config) (sched : Sched) : Bool :=
  cfg.employeeIds.all fun eid =>
    (List.range Store.NUM_SLOTS).all fun slot =>
      let here := decide ((cfg.employee eid).shift.range_start ≤ slot ∧
        slot < (cfg.employee eid).shift.range_stop)
      sched eid slot Appointment.NOT_HERE == !here

/-- Hard constraint: each employee has exactly one appointment per slot
(AddExactlyOne over the appointment variables). -/
def exactlyOneSat (cfg : Config) (sched : Sched) : Bool :=
  cfg.employeeIds.all fun eid =>
    (List.range Store.NUM_SLOTS).all fun slot =>
      boolSum ((List.range Appointment.COUNT).map fun appt => sched eid slot appt) == 1

/-- Hard constraint: a designated cashier is never support, regular or in a
meeting. -/
def cashierNeverSat (cfg : Config) (sched : Sched) : Bool :=
  cfg.employeeIds.all fun eid =>
    if (cfg.employeeIdsF ("CASHIER") false).contains eid then
      (List.range Store.NUM_SLOTS).all fun slot =>
        (sched eid slot Appointment.SUPPORT == false) &&
        (sched eid slot Appointment.REGULAR == false) &&
        (sched eid slot Appointment.MEETING == false)
    else
      true

/-- Hard constraint: at least one cashier at all times (AddAtLeastOne). -/
def atLeastOneCashierSat (cfg : Config) (sched : Sched) : Bool :=
  (List.range Store.NUM_SLOTS).all fun slot =>
    cfg.employeeIds.any fun eid => sched eid slot Appointment.CASHIER

/-- The running value the register-count loop of add_hard_constraints keeps:
walk the epochs in list order, stop at the first epoch whose start exceeds
the slot, remember the count of the last epoch passed. -/
def currCountLoop (slot : Nat) : List Epoch → Option Nat → Option Nat
  | [], acc => acc
  | e :: rest, acc =>
    if slot < e.start then acc else currCountLoop slot rest (some e.count)

/-- curr_count as computed for a slot (None when no epoch has started yet). -/
def currCount (epochs : List Epoch) (slot : Nat) : Option Nat :=
  currCountLoop slot epochs none

/-- The per-slot sum the register-count hard constraint bounds: the cashier
variables of all employees followed by the support variables of all
employees, as the two concatenated list comprehensions in the source. -/
def registerSum (cfg : Config) (sched : Sched) (slot : Nat) : Nat :=
  boolSum ((cfg.employeeIds.map fun eid => sched eid slot Appointment.CASHIER) ++
    (cfg.employeeIds.map fun eid => sched eid slot Appointment.SUPPORT))

/-- Hard constraint: obey config.register_count.  Only the Add(sum == count)
part is a model constraint; the feasibility check against the designated
cashiers aborts construction and is modelled separately by
registerSlotCheck.  A slot with no epoch in force makes the Python build
crash before adding anything, so no model exists: modelled as false. -/
def registerConstraintSat (cfg : Config) (sched : Sched) : Bool :=
  (List.range Store.NUM_SLOTS).all fun slot =>
    match currCount cfg.register_count slot with
    | none => false
    | some c => registerSum cfg sched slot == c

/-- Hard constraint: a non-designated-cashier doing cashier duty forbids a
second simultaneous cashier.  The auxiliary non_cashier_cashiers variable is
pinned by ortools_or, and Add(sum == 1).OnlyEnforceIf(aux). -/
def nonCashierCashierSat (cfg : Config) (sched : Sched) (aux : HardAux) : Bool :=
  (List.range Store.NUM_SLOTS).all fun slot =>
    ortoolsOrB (aux.nonCashierCashiers slot)
      ((cfg.employeeIdsF ("CASHIER") true).map fun eid => sched eid slot Appointment.CASHIER) &&
    (!(aux.nonCashierCashiers slot) ||
      boolSum (cfg.employeeIds.map fun eid => sched eid slot Appointment.CASHIER) == 1)

/-- The Python sum over a full day of one appointment kind for one employee. -/
def appointmentTotal (sched : Sched) (eid appt : Nat) : Nat :=
  ∑ slot ∈ Finset.range Store.NUM_SLOTS, if sched eid slot appt then 1 else 0

/-- Hard constraint: two breaks per employee. -/
def twoBreaksSat (cfg : Config) (sched : Sched) : Bool :=
  cfg.employeeIds.all fun eid => appointmentTotal sched eid Appointment.BREAK == 2

/-- Hard constraint: one lunch hour (SLOTS_PER_HOUR lunch slots) per
employee. -/
def lunchHourSat (cfg : Config) (sched : Sched) : Bool :=
  cfg.employeeIds.all fun eid => appointmentTotal sched eid Appointment.LUNCH == Store.SLOTS_PER_HOUR

/-- Hard constraint: one lunch start, on the hour, from lunch_slots:
AddExactlyOne over the candidate slots, and for each candidate an
ortools_and pinning to_the_right to "the next three slots are all lunch"
plus AddImplication(lunch at the candidate, to_the_right). -/
def lunchStartSat (cfg : Config) (sched : Sched) (aux : HardAux) : Bool :=
  cfg.employeeIds.all fun eid =>
    (boolSum (Shift.lunchSlots.map fun slot => sched eid slot Appointment.LUNCH) == 1) &&
    Shift.lunchSlots.all fun slot =>
      ortoolsAndB (aux.toTheRight eid slot)
        ((pyRange (slot + 1) (slot + Store.SLOTS_PER_HOUR) 1).map fun ss =>
          sched eid ss Appointment.LUNCH) &&
      (!(sched eid slot Appointment.LUNCH) || aux.toTheRight eid slot)

/-- Hard constraint: an employee never starts the shift with lunch. -/
def noLunchAtShiftStartSat (cfg : Config) (sched : Sched) : Bool :=
  cfg.employeeIds.all fun eid =>
    sched eid (cfg.employee eid).shift.range_start Appointment.LUNCH == false

/-- Hard constraint: obey config.meetings.  For each meeting name the looked
up employee has its MEETING variable equal to the in-a-meeting indicator slot by
slot; a lookup that aborts the build leaves no model, modelled as false.
Employees whose name carries no meetings never have the MEETING
appointment. -/
def meetingsSat (cfg : Config) (sched : Sched) : Bool :=
  (cfg.meetings.all fun nameRanges =>
    match cfg.employeeNameToId nameRanges.1 with
    | .found eid =>
      (List.range Store.NUM_SLOTS).all fun slot =>
        let inMeeting := nameRanges.2.any fun r => decide (r.1 ≤ slot ∧ slot < r.2)
        sched eid slot Appointment.MEETING == inMeeting
    | _ => false) &&
  (cfg.employeeIds.all fun eid =>
    if cfg.meetings.any fun nameRanges => nameRanges.1 == (cfg.employee eid).name then
      true
    else
      (List.range Store.NUM_SLOTS).all fun slot =>
        sched eid slot Appointment.MEETING == false)

/-- The full hard-constraint set of Run.add_hard_constraints, in source
order.  Every feasible schedule of the program satisfies it (the soft layer
only adds further constraints). -/
def hardConstraintsSat (cfg : Config) (sched : Sched) (aux : HardAux) : Bool :=
  shiftBoundsSat cfg sched && exactlyOneSat cfg sched && cashierNeverSat cfg sched &&
  atLeastOneCashierSat cfg sched && registerConstraintSat cfg sched &&
  nonCashierCashierSat cfg sched aux && twoBreaksSat cfg sched && lunchHourSat cfg sched &&
  lunchStartSat cfg sched aux && noLunchAtShiftStartSat cfg sched && meetingsSat cfg sched

/-- The ways model construction can abort: SystemExit with an operator-facing
message (a configuration error), a failed assert statement (a program-defect
check), or an uncaught TypeError (comparing None with an int when no
register epoch is in force). -/
inductive BuildErr where
  | systemExitErr : String → BuildErr
  | assertionErr : BuildErr
  | typeErr : BuildErr
deriving DecidableEq

/-- The exact message of the register-count SystemExit in
add_hard_constraints. -/
def registerCountMsg (slot currCt numDesignated : Nat) : String :=
  "config.REGISTER_COUNT needs updating: At " ++ Store.slotToTime slot ++
  ", register_count is " ++ toString currCt ++ " but there are " ++
  toString numDesignated ++ " designated cashiers!"

/-- The abort behaviour of the register-count block of add_hard_constraints
at one slot: TypeError when no epoch is in force, SystemExit when the count
in force is below the number of designated cashiers present. -/
def registerSlotCheck (cfg : Config) (slot : Nat) : Except BuildErr Unit :=
  match currCount cfg.register_count slot with
  | none => .error .typeErr
  | some c =>
    if c < cfg.numberOfDesignatedCashiersHere slot then
      .error (.systemExitErr (registerCountMsg slot c (cfg.numberOfDesignatedCashiersHere slot)))
    else
      .ok ()

/-- Run the per-slot register check over a list of slots in order, stopping
at the first abort. -/
def checkSlotList (cfg : Config) : List Nat → Except BuildErr Unit
  | [] => .ok ()
  | s :: rest =>
    match registerSlotCheck cfg s with
    | .ok _ => checkSlotList cfg rest
    | .error e => .error e

/-- The abort behaviour of the whole register-count block (slots in
ascending order, as the Python loop). -/
def registerBlockCheck (cfg : Config) : Except BuildErr Unit :=
  checkSlotList cfg (List.range Store.NUM_SLOTS)

/-- The abort behaviour of the meetings block: each meeting name is looked up
with employee_name_to_id, which can fail its assert or raise SystemExit. -/
def meetingsCheckList (cfg : Config) : List (String × List (Nat × Nat)) → Except BuildErr Unit
  | [] => .ok ()
  | nameRanges :: rest =>
    match cfg.employeeNameToId nameRanges.1 with
    | .assertionError => .error .assertionErr
    | .systemExit m => .error (.systemExitErr m)
    | .found _ => meetingsCheckList cfg rest

/-- The abort behaviour of Run.add_hard_constraints: the register-count block
runs before the meetings block; the other blocks cannot abort. -/
def addHardConstraintsCheck (cfg : Config) : Except BuildErr Unit :=
  match registerBlockCheck cfg with
  | .error e => .error e
  | .ok _ => meetingsCheckList cfg cfg.meetings

/-- The statuses the external solver collaborator can return. -/
inductive SolveStatus where
  | optimal : SolveStatus
  | feasible : SolveStatus
  | infeasible : SolveStatus
  | unknown : SolveStatus
  | modelInvalid : SolveStatus
deriving DecidableEq

/-- The observable outcome of one run of main(). -/
inductive RunResult where
  | configError : String → RunResult
  | assertionFailed : RunResult
  | typeError : RunResult
  | scheduled : RunResult
  | ladderExhausted : RunResult
  | modelInvalidExit : String → RunResult
deriving DecidableEq

/-- The fixed hand-ordered ladder of forced-disabled soft-constraint sets in
main(), tried in order before the final unpinned attempt. -/
def relaxationLadder : List (List String) := [
  [],
  [("cashier-diff-0")],
  [("register-diff-0")],
  [("cashier-diff-0"), ("register-diff-0")],
  [("cashier-diff-0"), ("register-diff-0"), ("cashier-diff-1")],
  [("cashier-diff-0"), ("register-diff-0"), ("register-diff-1")],
  [("cashier-diff-0"), ("register-diff-0"), ("cashier-diff-1"), ("register-diff-1")]]

/-- The relaxation loop of main(), with the external solver abstracted as an
oracle giving the status of the k-th solver invocation.  A successful rung
also runs the idealistic refinement solve, hence counts two invocations; an
infeasible or unknown rung advances the ladder; after the ladder one final
unpinned attempt is made.  The second component counts solver invocations. -/
def ladderGo (oracle : Nat → SolveStatus) : List (List String) → Nat → RunResult × Nat
  | [], k =>
    match oracle k with
    | .optimal => (.scheduled, k + 2)
    | .feasible => (.scheduled, k + 2)
    | .infeasible => (.ladderExhausted, k + 1)
    | .unknown => (.ladderExhausted, k + 1)
    | .modelInvalid => (.modelInvalidExit ("Model is invalid. That is a bug! Exiting."), k + 1)
  | _ :: rest, k =>
    match oracle k with
    | .optimal => (.scheduled, k + 2)
    | .feasible => (.scheduled, k + 2)
    | .infeasible => ladderGo oracle rest (k + 1)
    | .unknown => ladderGo oracle rest (k + 1)
    | .modelInvalid => (.modelInvalidExit ("Model is invalid. That is a bug! Exiting."), k + 1)

/-- main(): Config and Run are built first (Run.__init__ runs
add_hard_constraints, whose aborts end the process before any solve); only
then does the relaxation loop invoke the solver. -/
def runMain (cfg : Config) (oracle : Nat → SolveStatus) : RunResult × Nat :=
  match addHardConstraintsCheck cfg with
  | .error (.systemExitErr m) => (.configError m, 0)
  | .error .assertionErr => (.assertionFailed, 0)
  | .error .typeErr => (.typeError, 0)
  | .ok _ => ladderGo oracle relaxationLadder 0

/-- The inner sum of Run.cap_simultaneous_appointments: how many employees
hold one of the given appointments at a slot. -/
def simultaneousCount (cfg : Config) (sched : Sched) (appointments : List Nat) (slot : Nat) : Nat :=
  boolSum (cfg.employeeIds.flatMap fun eid => appointments.map fun appt => sched eid slot appt)

/-- The constraints Run.cap_simultaneous_appointments adds: one per slot,
each gated on the current soft enable toggle by OnlyEnforceIf. -/
def capSimultaneousAppointmentsSat (cfg : Config) (appointments : List Nat) (cap : Nat)
    (sched : Sched) (enable : Bool) : Bool :=
  (List.range Store.NUM_SLOTS).all fun slot =>
    !enable || decide (simultaneousCount cfg sched appointments slot ≤ cap)

/-- The constraints Run.cap_register_in_span adds: for every non-designated
cashier and every window base in the shift, the cashier-plus-support slots in
the window are at most cap.  Unlike every other soft-constraint procedure the
source attaches no OnlyEnforceIf(self.curr_soft_enable) here, so the
generated constraints never mention the enable toggle. -/
def capRegisterInSpanSat (cfg : Config) (cap slotSpan : Nat) (sched : Sched) : Bool :=
  (cfg.employeeIdsF ("CASHIER") true).all fun eid =>
    let r := (cfg.employee eid).shift
    (pyRange r.range_start r.range_stop 1).all fun slotBase =>
      decide (boolSum ((pyRange slotBase (min r.range_stop (slotBase + slotSpan)) 1).flatMap
        fun slot => [Appointment.CASHIER, Appointment.SUPPORT].map fun appt =>
          sched eid slot appt) ≤ cap)

/-- The constraint set generated for the registry record named
"register-max-4-in-16" (weight 4, lambda calling cap_register_in_span(4, 16)).
The enable parameter is the toggle value of the record; because the source adds
the constraints without OnlyEnforceIf, the result does not depend on it. -/
def registerMax4In16Sat (cfg : Config) (sched : Sched) (enable : Bool) : Bool :=
  capRegisterInSpanSat cfg 4 16 sched

/-- The breakroom crowding-cap records of add_soft_constraints that are
registered unconditionally, as (name, weight, cap argument passed to
cap_simultaneous_appointments([BREAK, LUNCH], cap)).  The source passes cap 6
for the record named "breakroom-7". -/
def breakroomCapRecords : List (String × Nat × Nat) :=
  [(("breakroom-5"), 3, 5), (("breakroom-6"), 10, 6), (("breakroom-7"), 999, 6)]

/-- The record "breakroom-4-if-12" only generates its cap-4 constraints when
the roster has at most 12 employees; otherwise its lambda adds nothing. -/
def breakroom4If12Sat (cfg : Config) (sched : Sched) (enable : Bool) : Bool :=
  if cfg.employeeIds.length ≤ 12 then
    capSimultaneousAppointmentsSat cfg [Appointment.BREAK, Appointment.LUNCH] 4 sched enable
  else
    true

/-- The full soft-constraint registry of Run.add_soft_constraints as
(name, weight) pairs, in registration order. -/
def softConstraintRegistry : List (String × Nat) := [
  (("aesthetics"), 1),
  (("break-3"), 2),
  (("break-4"), 3),
  (("break-5"), 4),
  (("break-bound-gap-44"), 4),
  (("break-bound-gap-54"), 2),
  (("break-bound-gap-11"), 999),
  (("break-lunch-gap-3"), 10),
  (("break-lunch-gap-4"), 4),
  (("breakroom-4-if-12"), 2),
  (("breakroom-5"), 3),
  (("breakroom-6"), 10),
  (("breakroom-7"), 999),
  (("cashier-diff-0"), 10),
  (("cashier-diff-1"), 20),
  (("cashier-diff-2"), 30),
  (("cashier-diff-3"), 40),
  (("cashier-diff-4"), 999),
  (("diff-break-cashiers"), 8),
  (("fulltime-avail"), 1),
  (("lunch-4-if-16"), 2),
  (("lunch-balance"), 1),
  (("lunch-fair-order"), 2),
  (("lunch-strict-bounds"), 20),
  (("nbc-avail"), 1),
  (("nbc-avail-except-1"), 4),
  (("nbc-avail-except-2"), 8),
  (("nbc-avail-except-3"), 12),
  (("nbc-avail-except-4"), 20),
  (("nbc-diff-break"), 4),
  (("nbc-no-reg-if-alone"), 4),
  (("no-reg-first-thing"), 4),
  (("register-diff-0"), 10),
  (("register-diff-1"), 20),
  (("register-diff-2"), 30),
  (("register-diff-3"), 40),
  (("register-diff-4"), 999),
  (("register-max-4-in-16"), 4),
  (("register-max-6-in-16"), 99)]

/-- The feasible solution handed to Run.make_schedule_idealistic: the values
the first solve gave to the enable toggles and to the schedule variables. -/
structure PriorSolution where
  enableVal : String → Bool
  schedVal : Sched

/-- The constraint set in force after Run.make_schedule_idealistic prepares
the refinement solve: the existing model constraints (abstracted as
baseSat, a predicate over the toggle assignment and the schedule) plus, for
every soft-constraint record, Add(enable == solver.Value(enable)).  Clearing
the objective, AddHint calls and the new Minimize objective do not change
which assignments satisfy the model, so they do not appear here. -/
def idealisticSat (baseSat : (String → Bool) → Sched → Bool) (prior : PriorSolution)
    (enable : String → Bool) (sched : Sched) : Bool :=
  baseSat enable sched &&
  softConstraintRegistry.all fun c => enable c.1 == prior.enableVal c.1

/-- The claim-side reading of the register-count step function: the count of
the last epoch whose effective-from slot is at or before the slot. -/
def lastEpochAtOrBefore (epochs : List Epoch) (slot : Nat) : Option Nat :=
  ((epochs.filter fun e => decide (e.start ≤ slot)).map Epoch.count).getLast?

/-- A full-day explicit shift, 10:00 to 8:00 (slots 0 to 40). -/
def shiftFullDay : Shift := ⟨("10:00-8:00"), false, 0, 40⟩

/-- Test roster: two non-cashier employees on full-day shifts, no meetings,
one register required all day. -/
def cfgW : Config :=
  ⟨[⟨shiftFullDay, ("W1"), ("SD")⟩, ⟨shiftFullDay, ("W2"), ("SD")⟩], [], [⟨1, 0⟩]⟩

/-- A hand-built schedule for cfgW: employee 0 lunches 12:00 to 1:00 and
breaks at slots 20 and 30, employee 1 lunches 1:00 to 2:00 and breaks at
slots 22 and 32; at every slot exactly one of the two is the cashier and the
other is regular when not on lunch or break. -/
def schedW : Sched := fun eid slot appt =>
  if eid == 0 then
    if 8 ≤ slot && slot < 12 then appt == Appointment.LUNCH
    else if slot == 20 || slot == 30 then appt == Appointment.BREAK
    else appt == Appointment.CASHIER
  else
    if 12 ≤ slot && slot < 16 then appt == Appointment.LUNCH
    else if slot == 22 || slot == 32 then appt == Appointment.BREAK
    else if (8 ≤ slot && slot < 12) || slot == 20 || slot == 30 then appt == Appointment.CASHIER
    else appt == Appointment.REGULAR

/-- Auxiliary variable values matching schedW: a non-designated cashier works
the register in every slot, and to_the_right holds exactly at each
lunch start of each employee. -/
def auxW : HardAux :=
  ⟨fun _ => true, fun eid slot => (eid == 0 && slot == 8) || (eid == 1 && slot == 12)⟩

/-- Test roster for the register-count configuration error: two designated
cashiers on full-day shifts but a register-count schedule demanding a single
register all day. -/
def cfg3 : Config :=
  ⟨[⟨shiftFullDay, ("C1"), ("CASHIER")⟩, ⟨shiftFullDay, ("C2"), ("CASHIER")⟩], [], [⟨1, 0⟩]⟩

/-- Test roster with a single employee named "A". -/
def cfg4 : Config := ⟨[⟨shiftFullDay, ("A"), ("SD")⟩], [], [⟨1, 0⟩]⟩

/-- Test roster with two distinct employees both named "A". -/
def cfg4dup : Config :=
  ⟨[⟨shiftFullDay, ("A"), ("SD")⟩, ⟨shiftFullDay, ("A"), ("EB")⟩], [], [⟨1, 0⟩]⟩

/-- Test roster with seven non-cashier employees on full-day shifts. -/
def cfg9 : Config :=
  ⟨(List.range 7).map fun i => ⟨shiftFullDay, toString i, ("SD")⟩, [], [⟨1, 0⟩]⟩

/-- A schedule putting all seven cfg9 employees on break in slot 0. -/
def sched9 : Sched := fun _ slot appt => slot == 0 && appt == Appointment.BREAK

/-- Test roster with one non-cashier employee on a full-day shift. -/
def cfgC1 : Config := ⟨[⟨shiftFullDay, ("A"), ("SD")⟩], [], [⟨1, 0⟩]⟩

/-- A schedule keeping that employee on the register the whole day. -/
def schedC1 : Sched := fun _ _ appt => appt == Appointment.CASHIER

/-- A base model with no constraints, for exercising the refinement pins in
isolation. -/
def baseSatTriv : (String → Bool) → Sched → Bool := fun _ _ => true

/-- A prior solution whose toggles are all true. -/
def priorTriv : PriorSolution := ⟨fun _ => true, fun _ _ _ => false⟩

/-- Claim C10: the Shift constructor template table and the lookup tables
behind lunch_priority and lunch_slots_strict are defined exactly on the five
(template, full-time) pairs (E, True), (E, False), (M, False), (L, True),
(L, False); the unlisted pair (M, True) raises an uncaught KeyError (none)
in construction instead of producing a shift or a configuration error. -/
theorem shift_template_domain :
    Shift.init ("M") true = none ∧
    lunchPriorityTable ("M") true = none ∧
    lunchSlotsStrictTable ("M") true = none ∧
    ((Shift.init ("E") true).isSome ∧ (Shift.init ("E") false).isSome ∧
      (Shift.init ("M") false).isSome ∧ (Shift.init ("L") true).isSome ∧
      (Shift.init ("L") false).isSome) ∧
    ((lunchPriorityTable ("E") true).isSome ∧ (lunchPriorityTable ("E") false).isSome ∧
      (lunchPriorityTable ("M") false).isSome ∧ (lunchPriorityTable ("L") true).isSome ∧
      (lunchPriorityTable ("L") false).isSome) ∧
    ((lunchSlotsStrictTable ("E") true).isSome ∧ (lunchSlotsStrictTable ("E") false).isSome ∧
      (lunchSlotsStrictTable ("M") false).isSome ∧ (lunchSlotsStrictTable ("L") true).isSome ∧
      (lunchSlotsStrictTable ("L") false).isSome) := by
  decide

/-- Claim C2, counterexample: the ladder of forced-disabled sets is not
subset-monotone.  Rung 1 disables "cashier-diff-0" but the later rung 2 does
not, so the claimed subset relation between every earlier and later rung
fails at the pair (1, 2). -/
theorem ladder_not_subset_monotone :
    1 < 2 ∧ 2 < relaxationLadder.length ∧
    ("cashier-diff-0") ∈ relaxationLadder.getD 1 [] ∧
    ("cashier-diff-0") ∉ relaxationLadder.getD 2 [] := by
  decide

/-- Claim C2, amended: the ladder is monotone in size (a later rung never
forces fewer constraints off than an earlier one) and the
forced-disabled set of every rung is contained in that of the final rung, but an intermediate
rung may re-enable a constraint disabled by an earlier rung. -/
theorem ladder_monotone_amended (i j : Nat) (hij : i < j) (hj : j < relaxationLadder.length) :
    (relaxationLadder.getD i []).length ≤ (relaxationLadder.getD j []).length ∧
    ∀ x ∈ relaxationLadder.getD i [], x ∈ relaxationLadder.getD (relaxationLadder.length - 1) [] := by
  have hj7 : j < 7 := hj
  have hi7 : i < 7 := Nat.lt_trans hij hj7
  interval_cases i <;> interval_cases j <;> decide

/-- Witness for ladder_monotone_amended at the rung pair (1, 3). -/
theorem ladder_monotone_amended_witness :
    (relaxationLadder.getD 1 []).length ≤ (relaxationLadder.getD 3 []).length ∧
    ∀ x ∈ relaxationLadder.getD 1 [], x ∈ relaxationLadder.getD (relaxationLadder.length - 1) [] :=
  ladder_monotone_amended 1 3 (by decide) (by decide)

/-- Claim C9: of the breakroom crowding-cap records, "breakroom-5" and
"breakroom-6" cap the simultaneous break-or-lunch headcount at 5 and 6, but
the record named "breakroom-7" is registered with cap 6, not 7: a schedule
with breakroom occupancy 7 violates its generated constraints even though a
cap of 7 would admit it. -/
theorem breakroom7_caps_at_six :
    (breakroomCapRecords.map fun r => (r.1, r.2.2)) =
      [(("breakroom-5"), 5), (("breakroom-6"), 6), (("breakroom-7"), 6)] ∧
    simultaneousCount cfg9 sched9 [Appointment.BREAK, Appointment.LUNCH] 0 = 7 ∧
    capSimultaneousAppointmentsSat cfg9 [Appointment.BREAK, Appointment.LUNCH] 6 sched9 true
      = false ∧
    capSimultaneousAppointmentsSat cfg9 [Appointment.BREAK, Appointment.LUNCH] 7 sched9 true
      = true := by
  decide

/-- Claim C1: the constraints generated for the registry record
"register-max-4-in-16" are not gated on its enable toggle.  A schedule that
keeps one non-designated cashier on the register for 16 consecutive slots is
rejected by the generated constraints of the record even when its
enable toggle is false (and identically under either toggle value), so the
record restricts assignments whose toggle is off. -/
theorem register_max_unguarded :
    registerMax4In16Sat cfgC1 schedC1 false = false ∧
    registerMax4In16Sat cfgC1 schedC1 true = false := by
  decide

/-- Claim C8, slot-level round trip: converting any slot of the open-hours
range to its display string and back is the identity. -/
theorem slot_display_roundtrip :
    ∀ s, s < Store.NUM_SLOTS + 1 → Store.timeToSlot (Store.slotToTime s) = s := by
  decide

/-- Claim C8: for every valid time string in the open-hours range,
slot_to_time(time_to_slot(t)) denotes the same slot as t: converting the
displayed string back gives the same slot index, although the string itself
need not be reproduced. -/
theorem time_conversion_roundtrip (t : String) (h : ValidTime t) :
    Store.timeToSlot (Store.slotToTime (Store.timeToSlot t)) = Store.timeToSlot t := by
  obtain ⟨h', m, _, _, _, _, hle⟩ := h
  exact slot_display_roundtrip _ (Nat.lt_succ_of_le hle)

/-- Witness for time_conversion_roundtrip at the time string "2:30". -/
theorem time_conversion_roundtrip_witness :
    ValidTime ("2:30") ∧
    Store.timeToSlot (Store.slotToTime (Store.timeToSlot ("2:30"))) = Store.timeToSlot ("2:30") :=
  have hv : ValidTime ("2:30") := ⟨2, 30, by decide, by decide, by decide, by decide, by decide⟩
  ⟨hv, time_conversion_roundtrip ("2:30") hv⟩

/-- Claim C4, counterexample: looking up a name absent from the roster does
not signal a configuration error; it trips the program-defect assert
statement (commented "Software bug." in the source) instead of raising the
operator-facing SystemExit. -/
theorem absent_name_asserts :
    cfg4.employeeNameToId ("B") = .assertionError ∧
    LookupResult.assertionError ≠ LookupResult.systemExit ("Name \"B\" is not unique") := by
  decide

/-- Claim C4, amended: the ambiguous-name case signals a configuration error
(SystemExit with an operator-facing message naming the duplicate), while the
absent-name case fails the program-defect assert statement. -/
theorem name_lookup_amended (cfg : Config) (name : String) :
    ((cfg.matchingIds name).length = 0 → cfg.employeeNameToId name = .assertionError) ∧
    (2 ≤ (cfg.matchingIds name).length →
      cfg.employeeNameToId name = .systemExit ("Name \"" ++ name ++ "\" is not unique")) := by
  constructor
  · intro h0
    simp [Config.employeeNameToId, h0]
  · intro h2
    simp only [Config.employeeNameToId]
    rw [if_neg (by omega), if_neg (by omega)]

/-- Witness for name_lookup_amended: the absent name "B" on cfg4 and the
duplicated name "A" on cfg4dup. -/
theorem name_lookup_amended_witness :
    ((cfg4.matchingIds ("B")).length = 0 ∧ cfg4.employeeNameToId ("B") = .assertionError) ∧
    (2 ≤ (cfg4dup.matchingIds ("A")).length ∧
      cfg4dup.employeeNameToId ("A") = .systemExit ("Name \"A\" is not unique")) :=
  ⟨⟨by decide, (name_lookup_amended cfg4 ("B")).1 (by decide)⟩,
    ⟨by decide, (name_lookup_amended cfg4dup ("A")).2 (by decide)⟩⟩

/-- employee_ids() with default arguments is just range(len(employees)). -/
theorem employeeIds_eq (cfg : Config) : cfg.employeeIds = List.range cfg.employees.length := rfl

/-- lunch_slots() evaluates to the four on-the-hour candidates. -/
theorem lunchSlots_eq : Shift.lunchSlots = [8, 12, 16, 20] := by decide

/-- If the ortools_and constraints hold and the result variable is true, all
the operand variables are true. -/
theorem ortoolsAndB_all (result : Bool) (vars : List Bool)
    (h : ortoolsAndB result vars = true) (hr : result = true) : ∀ v ∈ vars, v = true := by
  rw [ortoolsAndB, Bool.and_eq_true] at h
  intro v hv
  have hx := List.all_eq_true.mp h.2 v hv
  rw [hr] at hx
  simpa using hx

/-- An AddExactlyOne over four booleans leaves exactly one of them true. -/
theorem boolSum_four (a b c d : Bool) (h : boolSum [a, b, c, d] = 1) :
    (a = true ∧ b = false ∧ c = false ∧ d = false) ∨
    (a = false ∧ b = true ∧ c = false ∧ d = false) ∨
    (a = false ∧ b = false ∧ c = true ∧ d = false) ∨
    (a = false ∧ b = false ∧ c = false ∧ d = true) := by
  cases a <;> cases b <;> cases c <;> cases d <;> revert h <;> decide

/-- A boolean-valued slot function that is true on a block of four slots and
sums to four over the day is true exactly on that block. -/
theorem lunch_block (g : Nat → Bool) (s : Nat) (hs : s + 4 ≤ Store.NUM_SLOTS)
    (h0 : g s = true) (h1 : g (s + 1) = true) (h2 : g (s + 2) = true) (h3 : g (s + 3) = true)
    (htot : (∑ slot ∈ Finset.range Store.NUM_SLOTS, if g slot then 1 else 0) = 4) :
    ∀ slot, slot < Store.NUM_SLOTS → (g slot = true ↔ s ≤ slot ∧ slot < s + 4) := by
  have hcard : ((Finset.range Store.NUM_SLOTS).filter fun slot => g slot = true).card = 4 := by
    rw [Finset.card_filter]
    exact htot
  have hsub : Finset.Ico s (s + 4) ⊆
      (Finset.range Store.NUM_SLOTS).filter fun slot => g slot = true := by
    intro x hx
    rw [Finset.mem_Ico] at hx
    rw [Finset.mem_filter, Finset.mem_range]
    refine ⟨by omega, ?_⟩
    have hx4 : x = s ∨ x = s + 1 ∨ x = s + 2 ∨ x = s + 3 := by omega
    rcases hx4 with rfl | rfl | rfl | rfl
    · exact h0
    · exact h1
    · exact h2
    · exact h3
  have hico : (Finset.Ico s (s + 4)).card = 4 := by
    rw [Nat.card_Ico]
    omega
  have heq : Finset.Ico s (s + 4) =
      (Finset.range Store.NUM_SLOTS).filter fun slot => g slot = true :=
    Finset.eq_of_subset_of_card_le hsub (by rw [hcard, hico])
  intro slot hslot
  constructor
  · intro hg
    have hmem : slot ∈ (Finset.range Store.NUM_SLOTS).filter fun slot => g slot = true := by
      rw [Finset.mem_filter, Finset.mem_range]
      exact ⟨hslot, hg⟩
    rw [← heq, Finset.mem_Ico] at hmem
    exact hmem
  · intro hin
    have hmem : slot ∈ Finset.Ico s (s + 4) := by
      rw [Finset.mem_Ico]
      exact hin
    rw [heq, Finset.mem_filter] at hmem
    exact hmem.2

/-- The three slots to the right of a lunch candidate. -/
theorem pyRange_next3 (s : Nat) :
    pyRange (s + 1) (s + Store.SLOTS_PER_HOUR) 1 = [s + 1, s + 2, s + 3] := by
  have h4 : Store.SLOTS_PER_HOUR = 4 := rfl
  rw [pyRange, h4]
  have hc : (s + 4 - (s + 1) + 1 - 1) / 1 = 3 := by omega
  rw [hc]
  have hr : List.range 3 = [0, 1, 2] := rfl
  rw [hr]
  simp

/-- From the per-candidate lunch constraints: once a candidate slot carries
lunch, the whole hour starting there is exactly the lunch set. -/
theorem lunch_candidate_block (sched : Sched) (aux : HardAux) (eid s : Nat)
    (hs : s ∈ [8, 12, 16, 20])
    (hcand : ([8, 12, 16, 20].all fun slot =>
      (ortoolsAndB (aux.toTheRight eid slot)
        ((pyRange (slot + 1) (slot + Store.SLOTS_PER_HOUR) 1).map fun ss =>
          sched eid ss Appointment.LUNCH) &&
        (!(sched eid slot Appointment.LUNCH) || aux.toTheRight eid slot))) = true)
    (ha : sched eid s Appointment.LUNCH = true)
    (htot : appointmentTotal sched eid Appointment.LUNCH = Store.SLOTS_PER_HOUR) :
    ∀ slot, slot < Store.NUM_SLOTS →
      (sched eid slot Appointment.LUNCH = true ↔ s ≤ slot ∧ slot < s + 4) := by
  have hs4 : s + 4 ≤ Store.NUM_SLOTS := by
    rcases (by simpa using hs : s = 8 ∨ s = 12 ∨ s = 16 ∨ s = 20) with rfl | rfl | rfl | rfl <;>
      decide
  have hcs := List.all_eq_true.mp hcand s hs
  rw [Bool.and_eq_true] at hcs
  obtain ⟨handc, himp⟩ := hcs
  rw [ha] at himp
  simp only [Bool.not_true, Bool.false_or] at himp
  have hv := ortoolsAndB_all _ _ handc himp
  rw [pyRange_next3 s] at hv
  have h1 := hv _ (List.mem_map.mpr ⟨s + 1, by simp, rfl⟩)
  have h2 := hv _ (List.mem_map.mpr ⟨s + 2, by simp, rfl⟩)
  have h3 := hv _ (List.mem_map.mpr ⟨s + 3, by simp, rfl⟩)
  exact lunch_block _ s hs4 ha h1 h2 h3 htot

/-- Claim C5: in every schedule satisfying the hard constraints, every
employee has exactly two break slots and exactly four lunch slots, and the
lunch slots form the contiguous hour starting at exactly one of the
on-the-hour lunch_slots() candidates. -/
theorem feasible_lunch_break_structure (cfg : Config) (sched : Sched) (aux : HardAux)
    (h : hardConstraintsSat cfg sched aux = true) (eid : Nat) (he : eid < cfg.employees.length) :
    appointmentTotal sched eid Appointment.BREAK = 2 ∧
    appointmentTotal sched eid Appointment.LUNCH = Store.SLOTS_PER_HOUR ∧
    ∃ s ∈ Shift.lunchSlots,
      (∀ slot, slot < Store.NUM_SLOTS →
        (sched eid slot Appointment.LUNCH = true ↔ s ≤ slot ∧ slot < s + 4)) ∧
      ∀ s' ∈ Shift.lunchSlots, sched eid s' Appointment.LUNCH = true → s' = s := by
  rw [hardConstraintsSat] at h
  simp only [Bool.and_eq_true] at h
  obtain ⟨⟨⟨⟨⟨⟨⟨⟨⟨⟨_h1, _h2⟩, _h3⟩, _h4⟩, _h5⟩, _h6⟩, h7⟩, h8⟩, h9⟩, _h10⟩, _h11⟩ := h
  have hmem : eid ∈ cfg.employeeIds := by
    rw [employeeIds_eq]
    exact List.mem_range.mpr he
  have hbreak : appointmentTotal sched eid Appointment.BREAK = 2 := by
    have hx := List.all_eq_true.mp h7 eid hmem
    simpa using hx
  have hlunch : appointmentTotal sched eid Appointment.LUNCH = Store.SLOTS_PER_HOUR := by
    have hx := List.all_eq_true.mp h8 eid hmem
    simpa using hx
  refine ⟨hbreak, hlunch, ?_⟩
  have h9e := List.all_eq_true.mp h9 eid hmem
  rw [Bool.and_eq_true] at h9e
  obtain ⟨hone, hcand⟩ := h9e
  rw [lunchSlots_eq] at hone hcand
  rw [lunchSlots_eq]
  have hone' : boolSum [sched eid 8 Appointment.LUNCH, sched eid 12 Appointment.LUNCH,
      sched eid 16 Appointment.LUNCH, sched eid 20 Appointment.LUNCH] = 1 := by
    simpa using hone
  rcases boolSum_four _ _ _ _ hone' with ⟨ha, hb, hc, hd⟩ | ⟨ha, hb, hc, hd⟩ |
    ⟨ha, hb, hc, hd⟩ | ⟨ha, hb, hc, hd⟩
  · refine ⟨8, by simp, lunch_candidate_block sched aux eid 8 (by simp) hcand ha hlunch, ?_⟩
    intro s' hs' hf
    rcases (by simpa using hs' : s' = 8 ∨ s' = 12 ∨ s' = 16 ∨ s' = 20) with rfl | rfl | rfl | rfl <;>
      simp_all
  · refine ⟨12, by simp, lunch_candidate_block sched aux eid 12 (by simp) hcand hb hlunch, ?_⟩
    intro s' hs' hf
    rcases (by simpa using hs' : s' = 8 ∨ s' = 12 ∨ s' = 16 ∨ s' = 20) with rfl | rfl | rfl | rfl <;>
      simp_all
  · refine ⟨16, by simp, lunch_candidate_block sched aux eid 16 (by simp) hcand hc hlunch, ?_⟩
    intro s' hs' hf
    rcases (by simpa using hs' : s' = 8 ∨ s' = 12 ∨ s' = 16 ∨ s' = 20) with rfl | rfl | rfl | rfl <;>
      simp_all
  · refine ⟨20, by simp, lunch_candidate_block sched aux eid 20 (by simp) hcand hd hlunch, ?_⟩
    intro s' hs' hf
    rcases (by simpa using hs' : s' = 8 ∨ s' = 12 ∨ s' = 16 ∨ s' = 20) with rfl | rfl | rfl | rfl <;>
      simp_all

/-- Witness for feasible_lunch_break_structure: the hand-built schedule
schedW on the two-employee roster cfgW, at employee 0. -/
theorem feasible_lunch_break_structure_witness :
    appointmentTotal schedW 0 Appointment.BREAK = 2 ∧
    appointmentTotal schedW 0 Appointment.LUNCH = Store.SLOTS_PER_HOUR ∧
    ∃ s ∈ Shift.lunchSlots,
      (∀ slot, slot < Store.NUM_SLOTS →
        (schedW 0 slot Appointment.LUNCH = true ↔ s ≤ slot ∧ slot < s + 4)) ∧
      ∀ s' ∈ Shift.lunchSlots, schedW 0 s' Appointment.LUNCH = true → s' = s :=
  feasible_lunch_break_structure cfgW schedW auxW (by decide) 0 (by decide)

/-- Appending to the front of a list shifts getLast? with a fallback. -/
theorem getLast?_cons_fallback {α : Type} (a : α) (l : List α) :
    (a :: l).getLast? = match l.getLast? with | some c => some c | none => some a := by
  cases l with
  | nil => rfl
  | cons x xs =>
    rw [List.getLast?_cons_cons]
    cases hx : (x :: xs).getLast? with
    | none => simp at hx
    | some c => rfl

/-- On a register-count list sorted by effective-from slot, the break-early
loop of add_hard_constraints computes the count of the last epoch at or
before the slot (falling back to the accumulator when none has started). -/
theorem currCountLoop_sorted (slot : Nat) :
    ∀ (epochs : List Epoch) (acc : Option Nat),
      epochs.Pairwise (fun a b => a.start ≤ b.start) →
      currCountLoop slot epochs acc =
        match lastEpochAtOrBefore epochs slot with
        | some c => some c
        | none => acc := by
  intro epochs
  induction epochs with
  | nil =>
    intro acc _
    rfl
  | cons e rest ih =>
    intro acc hp
    rw [List.pairwise_cons] at hp
    obtain ⟨hall, hrest⟩ := hp
    by_cases hse : slot < e.start
    · have hf : (e :: rest).filter (fun x => decide (x.start ≤ slot)) = [] := by
        rw [List.filter_eq_nil_iff]
        intro x hx
        rw [List.mem_cons] at hx
        rcases hx with rfl | hx
        · simp
          omega
        · have := hall x hx
          simp
          omega
      rw [lastEpochAtOrBefore, hf]
      simp [currCountLoop, hse]
    · push_neg at hse
      have hstep : currCountLoop slot (e :: rest) acc = currCountLoop slot rest (some e.count) := by
        simp [currCountLoop]
        omega
      have hfe : (e :: rest).filter (fun x => decide (x.start ≤ slot)) =
          e :: rest.filter (fun x => decide (x.start ≤ slot)) := by
        simp [List.filter_cons, hse]
      rw [hstep, ih (some e.count) hrest]
      conv_lhs => rw [lastEpochAtOrBefore]
      conv_rhs => rw [lastEpochAtOrBefore, hfe, List.map_cons, getLast?_cons_fallback]
      cases ((rest.filter fun x => decide (x.start ≤ slot)).map Epoch.count).getLast? <;> rfl

/-- On a sorted register-count list, curr_count is exactly the count of the
last epoch whose effective-from slot is at or before the slot. -/
theorem currCount_sorted (epochs : List Epoch) (slot : Nat)
    (h : epochs.Pairwise fun a b => a.start ≤ b.start) :
    currCount epochs slot = lastEpochAtOrBefore epochs slot := by
  rw [currCount, currCountLoop_sorted slot epochs none h]
  cases lastEpochAtOrBefore epochs slot <;> rfl

/-- Claim C6: in every schedule satisfying the hard constraints (with the
register-count step schedule sorted by effective-from slot, as a step
function over the day is), the number of employees on the cashier activity
plus the number on the support activity at a slot equals the count of the
last epoch whose effective-from slot is at or before that slot. -/
theorem feasible_register_sum (cfg : Config) (sched : Sched) (aux : HardAux)
    (h : hardConstraintsSat cfg sched aux = true)
    (hsorted : cfg.register_count.Pairwise fun a b => a.start ≤ b.start)
    (slot : Nat) (hslot : slot < Store.NUM_SLOTS) :
    ∃ c, lastEpochAtOrBefore cfg.register_count slot = some c ∧
      registerSum cfg sched slot = c := by
  rw [hardConstraintsSat] at h
  simp only [Bool.and_eq_true] at h
  obtain ⟨⟨⟨⟨⟨⟨⟨⟨⟨⟨_h1, _h2⟩, _h3⟩, _h4⟩, h5⟩, _h6⟩, _h7⟩, _h8⟩, _h9⟩, _h10⟩, _h11⟩ := h
  have hx := List.all_eq_true.mp h5 slot (List.mem_range.mpr hslot)
  rw [← currCount_sorted cfg.register_count slot hsorted]
  cases hcc : currCount cfg.register_count slot with
  | none =>
    rw [hcc] at hx
    simp at hx
  | some c =>
    rw [hcc] at hx
    simp only [beq_iff_eq] at hx
    exact ⟨c, rfl, hx⟩

/-- Witness for feasible_register_sum: cfgW with schedW at slot 5, where one
register is required and exactly one employee is on the cashier activity. -/
theorem feasible_register_sum_witness :
    ∃ c, lastEpochAtOrBefore cfgW.register_count 5 = some c ∧
      registerSum cfgW schedW 5 = c :=
  feasible_register_sum cfgW schedW auxW (by decide) (by decide) 5 (by decide)

/-- Splitting the ascending slot list of the register-count loop at a slot. -/
theorem range_split_at (s n : Nat) (h : s < n) :
    List.range n = List.range s ++ s :: (List.range n).drop (s + 1) := by
  conv_lhs => rw [← List.take_append_drop s (List.range n)]
  congr 1
  · rw [List.take_range, Nat.min_eq_left (Nat.le_of_lt h)]
  · rw [List.drop_eq_getElem_cons (by simpa using h)]
    simp

/-- The per-slot register check processes a concatenation left to right. -/
theorem checkSlotList_append (cfg : Config) (l1 l2 : List Nat) :
    checkSlotList cfg (l1 ++ l2) =
      match checkSlotList cfg l1 with
      | .ok _ => checkSlotList cfg l2
      | .error e => .error e := by
  induction l1 with
  | nil => rfl
  | cons s rest ih =>
    rw [List.cons_append]
    simp only [checkSlotList]
    cases hc : registerSlotCheck cfg s with
    | ok u => exact ih
    | error e => rfl

/-- A slot list on which every per-slot check passes checks out whole. -/
theorem checkSlotList_ok (cfg : Config) (l : List Nat)
    (h : ∀ x ∈ l, registerSlotCheck cfg x = .ok ()) : checkSlotList cfg l = .ok () := by
  induction l with
  | nil => rfl
  | cons s rest ih =>
    simp only [checkSlotList]
    rw [h s (List.mem_cons_self s rest)]
    exact ih fun x hx => h x (List.mem_cons_of_mem s hx)

/-- Claim C3: if at some slot the register count in force is below the number
of designated cashiers present in that slot (and the schedule was a proper
step function up to there), model construction aborts with the SystemExit
configuration error whose message names the time and both counts, the solver
is never invoked (the invocation count is 0 for every solver oracle), and
the outcome is a different constructor from the ladder-exhausted outcome that
solver infeasibility produces. -/
theorem register_schedule_config_error (cfg : Config) (s c : Nat) (oracle : Nat → SolveStatus)
    (hs : s < Store.NUM_SLOTS)
    (hc : currCount cfg.register_count s = some c)
    (hviol : c < cfg.numberOfDesignatedCashiersHere s)
    (hbefore : ∀ s' < s, ∃ c', currCount cfg.register_count s' = some c' ∧
      cfg.numberOfDesignatedCashiersHere s' ≤ c') :
    runMain cfg oracle =
      (.configError (registerCountMsg s c (cfg.numberOfDesignatedCashiersHere s)), 0) ∧
    ∀ m, RunResult.configError m ≠ RunResult.ladderExhausted := by
  have hslot : registerSlotCheck cfg s =
      .error (.systemExitErr (registerCountMsg s c (cfg.numberOfDesignatedCashiersHere s))) := by
    rw [registerSlotCheck, hc]
    simp [hviol]
  have hblock : registerBlockCheck cfg =
      .error (.systemExitErr (registerCountMsg s c (cfg.numberOfDesignatedCashiersHere s))) := by
    rw [registerBlockCheck, range_split_at s Store.NUM_SLOTS hs, checkSlotList_append]
    have hok : checkSlotList cfg (List.range s) = .ok () := by
      apply checkSlotList_ok
      intro x hx
      rw [List.mem_range] at hx
      obtain ⟨c', hc', hle⟩ := hbefore x hx
      rw [registerSlotCheck, hc']
      simp
      omega
    rw [hok]
    simp only [checkSlotList]
    rw [hslot]
  constructor
  · rw [runMain, addHardConstraintsCheck, hblock]
  · intro m h
    exact RunResult.noConfusion h

/-- Witness for register_schedule_config_error: cfg3 demands one register at
10:00 while two designated cashiers are present, so the run aborts at slot 0
with the exact operator-facing message and zero solver invocations. -/
theorem register_schedule_config_error_witness :
    runMain cfg3 (fun _ => SolveStatus.infeasible) =
      (.configError (registerCountMsg 0 1 (cfg3.numberOfDesignatedCashiersHere 0)), 0) ∧
    ∀ m, RunResult.configError m ≠ RunResult.ladderExhausted :=
  register_schedule_config_error cfg3 0 1 (fun _ => SolveStatus.infeasible)
    (by decide) (by decide) (by decide)
    (fun s' hs' => absurd hs' (Nat.not_lt_zero s'))

/-- Claim C7: the idealistic-refinement re-solve pins every soft-constraint
record enable toggle to its value in the feasible solution handed to
refinement, so in every assignment satisfying the refinement model the
toggle values are identical to those of the prior solution; only the schedule
variables remain free beyond the base model constraints. -/
theorem refinement_pins_toggles (baseSat : (String → Bool) → Sched → Bool)
    (prior : PriorSolution) (enable : String → Bool) (sched : Sched)
    (h : idealisticSat baseSat prior enable sched = true) :
    ∀ c ∈ softConstraintRegistry, enable c.1 = prior.enableVal c.1 := by
  rw [idealisticSat, Bool.and_eq_true] at h
  intro c hc
  have := List.all_eq_true.mp h.2 c hc
  simpa using this

/-- Witness for refinement_pins_toggles: the unconstrained base model with
all toggles true before and after refinement. -/
theorem refinement_pins_toggles_witness :
    idealisticSat baseSatTriv priorTriv (fun _ => true) schedW = true ∧
    ∀ c ∈ softConstraintRegistry, (fun _ => true : String → Bool) c.1 = priorTriv.enableVal c.1 :=
  ⟨by decide, refinement_pins_toggles baseSatTriv priorTriv (fun _ => true) schedW (by decide)⟩

end Kino
